import Mathlib

/-!
# Verification of the multi-step form wizard (formContext.tsx)

A shallow embedding of `src/context/formContext.tsx`: the shared step state
held by `FormProvider`, the `useFormContext` accessor, the `stepsData`
derivation of `MultiStepForm`, the `onNext` / `onPrev` / `handleSubmit`
handlers of `MultiStepFormContent`, the visual classification performed by
`EnhancedStepper`, and the `Navigation` control rendering.

`currentStep` is modelled as an integer (`Int`): the source clamps with
`Math.min(prev + 1, steps.length - 1)` and `Math.max(prev - 1, 0)` over
JavaScript numbers, so with an empty step list the index can become `-1`.
-/

namespace MultiStepFormLib

/-- The form data bag: `Record<string, any>` in the source, modelled as an
association list from string keys to string values. -/
abbrev FormData := List (String × String)

/-- The shared step state created by `FormProvider` (lines 26-35):
`currentStep` from `useState(0)` and `formData` from `useState({})`. -/
structure FormState where
  currentStep : Int
  formData : FormData
deriving DecidableEq, Repr

/-- The initial state of `FormProvider`: `useState(0)` and `useState({})`. -/
def initialState : FormState := { currentStep := 0, formData := [] }

/-- The context value exposed to descendants (interface `FormContextType`,
lines 5-10), without the two setter functions. -/
structure FormContextType where
  currentStep : Int
  formData : FormData
deriving DecidableEq, Repr

/-- `useFormContext` (lines 14-20): reads the context; when no provider is
mounted the context is `undefined` (`none`) and the hook throws
`Error('useFormContext must be used within a FormProvider')`; otherwise it
returns the context value unchanged. -/
def useFormContext : Option FormContextType → Except String FormContextType
  | none => Except.error "useFormContext must be used within a FormProvider"
  | some c => Except.ok c

/-- A declared `Step` element: its props carry a `title` (interface
`StepProps`, lines 41-44). -/
structure StepProps where
  title : String
deriving DecidableEq, Repr

/-- One entry of `stepsData`: `{ step: index + 1, title: step.props.title }`
(lines 67-70). -/
structure StepData where
  step : Nat
  title : String
deriving DecidableEq, Repr

/-- `stepsData` (`MultiStepForm`, lines 66-70): maps the ordered declared
step elements to `{ step: index + 1, title: step.props.title }`. -/
def stepsData (steps : List StepProps) : List StepData :=
  steps.enum.map (fun p => { step := p.1 + 1, title := p.2.title })

/-- `onNext` (line 130):
`setCurrentStep(prev => Math.min(prev + 1, steps.length - 1))`. -/
def onNext (stepCount : Nat) (st : FormState) : FormState :=
  { st with currentStep := min (st.currentStep + 1) ((stepCount : Int) - 1) }

/-- `onPrev` (line 131):
`setCurrentStep(prev => Math.max(prev - 1, 0))`. -/
def onPrev (st : FormState) : FormState :=
  { st with currentStep := max (st.currentStep - 1) 0 }

/-- `handleSubmit` (lines 104-106): calls `onSubmit(formData)` and nothing
else. The result pairs the state after the activation (the handler does not
touch it) with the list of completion-callback invocations performed, each
entry being the argument passed to the callback. -/
def handleSubmit (st : FormState) : FormState × List FormData :=
  (st, [st.formData])

/-- A navigation button press: Next or Previous. -/
inductive NavAction where
  | next
  | prev
deriving DecidableEq, Repr

/-- Dispatch one button press to its handler. -/
def applyNav (stepCount : Nat) (st : FormState) : NavAction → FormState
  | NavAction.next => onNext stepCount st
  | NavAction.prev => onPrev st

/-- Run a finite sequence of Next/Previous presses from a state. -/
def runNav (stepCount : Nat) (st : FormState) (acts : List NavAction) : FormState :=
  acts.foldl (applyNav stepCount) st

/-- The bounds invariant of the spec: `0 ≤ currentStep ≤ stepCount - 1`. -/
def inBounds (stepCount : Nat) (st : FormState) : Prop :=
  0 ≤ st.currentStep ∧ st.currentStep ≤ (stepCount : Int) - 1

/-- The three visual states of a stepper entry. -/
inductive StepVisual where
  | completed
  | active
  | pending
deriving DecidableEq, Repr

/-- Visual classification of one stepper entry by `EnhancedStepper`
(lines 160-196), where `cs` is the component's `currentStep` prop and
`ordinal` is the entry's `s.step`: the check icon renders when
`currentStep > s.step` (completed), the enlarged bold styling applies when
`currentStep === s.step` (active), and otherwise the plain dot shows
(pending). -/
def stepVisual (cs : Int) (ordinal : Nat) : StepVisual :=
  if (ordinal : Int) < cs then StepVisual.completed
  else if cs = (ordinal : Int) then StepVisual.active
  else StepVisual.pending

/-- Connector color after a stepper entry (lines 197-206):
`currentStep > s.step ? '#788191' : '#EAECF0'`. -/
def connectorColor (cs : Int) (ordinal : Nat) : String :=
  if (ordinal : Int) < cs then "#788191" else "#EAECF0"

/-- The `currentStep` prop handed to `EnhancedStepper` (line 112): the
0-based shared index plus one. -/
def stepperCurrentStep (st : FormState) : Int :=
  st.currentStep + 1

/-- The visible outcome of rendering `Navigation`: whether the Previous
button carries `disabled`, and the label of the right-hand button. -/
structure NavigationView where
  prevDisabled : Bool
  rightButton : String
deriving DecidableEq, Repr

/-- `Navigation` (lines 221-265) as a function of its props: the Previous
button is `disabled={isFirstStep}`, and the right-hand button is Submit when
`isLastStep`, Next otherwise. -/
def renderNavigation (isFirst isLast : Bool) : NavigationView :=
  { prevDisabled := isFirst
  , rightButton := if isLast then "Submit" else "Next" }

/-- The `isFirstStep` prop passed by `MultiStepFormContent` (line 128):
`currentStep === 0`. -/
def isFirstStep (st : FormState) : Bool :=
  st.currentStep == 0

/-- The `isLastStep` prop passed by `MultiStepFormContent` (line 129):
`currentStep === steps.length - 1`. -/
def isLastStep (stepCount : Nat) (st : FormState) : Bool :=
  st.currentStep == (stepCount : Int) - 1

/-! ## Helper lemmas -/

lemma applyNav_preserves (n : Nat) (hn : 1 ≤ n) (st : FormState) (a : NavAction)
    (h : inBounds n st) : inBounds n (applyNav n st a) := by
  obtain ⟨h0, h1⟩ := h
  cases a <;>
    simp only [applyNav, onNext, onPrev, inBounds] <;>
    constructor <;> omega

lemma runNav_preserves (n : Nat) (hn : 1 ≤ n) (acts : List NavAction) (st : FormState)
    (h : inBounds n st) : inBounds n (runNav n st acts) := by
  induction acts generalizing st with
  | nil => exact h
  | cons a rest ih =>
      have hstep : inBounds n (applyNav n st a) := applyNav_preserves n hn st a h
      simpa [runNav, List.foldl_cons] using ih (applyNav n st a) hstep

lemma stepVisual_completed_iff (cs : Int) (ordinal : Nat) :
    stepVisual cs ordinal = StepVisual.completed ↔ (ordinal : Int) < cs := by
  unfold stepVisual
  rcases lt_trichotomy (ordinal : Int) cs with h | h | h
  · exact iff_of_true (by rw [if_pos h]) h
  · exact iff_of_false (by rw [if_neg (by omega), if_pos h.symm]; simp) (by omega)
  · exact iff_of_false (by rw [if_neg (by omega), if_neg (by omega)]; simp) (by omega)

lemma stepVisual_active_iff (cs : Int) (ordinal : Nat) :
    stepVisual cs ordinal = StepVisual.active ↔ (ordinal : Int) = cs := by
  unfold stepVisual
  rcases lt_trichotomy (ordinal : Int) cs with h | h | h
  · exact iff_of_false (by rw [if_pos h]; simp) (by omega)
  · exact iff_of_true (by rw [if_neg (by omega), if_pos h.symm]) h
  · exact iff_of_false (by rw [if_neg (by omega), if_neg (by omega)]; simp) (by omega)

lemma stepVisual_pending_iff (cs : Int) (ordinal : Nat) :
    stepVisual cs ordinal = StepVisual.pending ↔ cs < (ordinal : Int) := by
  unfold stepVisual
  rcases lt_trichotomy (ordinal : Int) cs with h | h | h
  · exact iff_of_false (by rw [if_pos h]; simp) (by omega)
  · exact iff_of_false (by rw [if_neg (by omega), if_pos h.symm]; simp) (by omega)
  · exact iff_of_true (by rw [if_neg (by omega), if_neg (by omega)]) h

lemma connectorColor_completed_iff (cs : Int) (ordinal : Nat) :
    connectorColor cs ordinal = "#788191" ↔ stepVisual cs ordinal = StepVisual.completed := by
  rw [stepVisual_completed_iff]
  unfold connectorColor
  split <;> simp_all

lemma stepsData_length (steps : List StepProps) :
    (stepsData steps).length = steps.length := by
  simp [stepsData]

lemma stepsData_step (steps : List StepProps) (i : Nat)
    (hi : i < (stepsData steps).length) :
    ((stepsData steps).get ⟨i, hi⟩).step = i + 1 := by
  have hi2 : i < steps.enum.length := by simpa [stepsData] using hi
  simp [stepsData, List.get_eq_getElem, List.getElem_enum]

/-! ## Claims -/

/-- C1: For every stepCount ≥ 1 and every finite sequence of Next and
Previous transitions applied from the initial state `currentStep = 0`, the
resulting `currentStep` satisfies `0 ≤ currentStep ≤ stepCount - 1`; since
the statement quantifies over all finite sequences it holds after every
transition of any run. -/
theorem next_prev_bounds (n : Nat) (hn : 1 ≤ n) (acts : List NavAction) :
    0 ≤ (runNav n initialState acts).currentStep ∧
      (runNav n initialState acts).currentStep ≤ (n : Int) - 1 := by
  have hinit : inBounds n initialState := by
    constructor
    · exact le_refl 0
    · show (0 : Int) ≤ (n : Int) - 1
      omega
  exact runNav_preserves n hn acts initialState hinit

/-- Witness for C1 at stepCount 3 and the sequence Next, Next, Prev. -/
theorem next_prev_bounds_witness :
    0 ≤ (runNav 3 initialState [NavAction.next, NavAction.next, NavAction.prev]).currentStep ∧
      (runNav 3 initialState [NavAction.next, NavAction.next, NavAction.prev]).currentStep ≤
        (3 : Int) - 1 :=
  next_prev_bounds 3 (by decide) [NavAction.next, NavAction.next, NavAction.prev]

/-- C2: Next sets `currentStep` to `min(currentStep + 1, stepCount - 1)`,
and when `currentStep = stepCount - 1` any number of further Next presses
leaves the state unchanged. -/
theorem onNext_clamps (n : Nat) (st : FormState) :
    (onNext n st).currentStep = min (st.currentStep + 1) ((n : Int) - 1) ∧
      (st.currentStep = (n : Int) - 1 → ∀ k : Nat, (onNext n)^[k] st = st) := by
  constructor
  · rfl
  · intro h k
    have hfix : onNext n st = st := by
      have hc : min (st.currentStep + 1) ((n : Int) - 1) = st.currentStep := by omega
      cases st with
      | mk c d => simpa [onNext] using congrArg (fun x => FormState.mk x d) hc
    exact Function.iterate_fixed hfix k

/-- Witness for C2 at stepCount 3 from the last step, five Next presses. -/
theorem onNext_clamps_witness :
    (onNext 3 { currentStep := 2, formData := [] }).currentStep =
        min ((2 : Int) + 1) ((3 : Int) - 1) ∧
      (onNext 3)^[5] { currentStep := 2, formData := [] } =
        { currentStep := 2, formData := [] } :=
  ⟨(onNext_clamps 3 { currentStep := 2, formData := [] }).1,
   (onNext_clamps 3 { currentStep := 2, formData := [] }).2 (by decide) 5⟩

/-- C3: Previous sets `currentStep` to `max(currentStep - 1, 0)`, and when
`currentStep = 0` any number of further Previous presses leaves the state
unchanged. -/
theorem onPrev_clamps (st : FormState) :
    (onPrev st).currentStep = max (st.currentStep - 1) 0 ∧
      (st.currentStep = 0 → ∀ k : Nat, onPrev^[k] st = st) := by
  constructor
  · rfl
  · intro h k
    have hfix : onPrev st = st := by
      have hc : max (st.currentStep - 1) 0 = st.currentStep := by omega
      cases st with
      | mk c d => simpa [onPrev] using congrArg (fun x => FormState.mk x d) hc
    exact Function.iterate_fixed hfix k

/-- Witness for C3 at the first step, five Previous presses. -/
theorem onPrev_clamps_witness :
    (onPrev { currentStep := 0, formData := [] }).currentStep =
        max ((0 : Int) - 1) 0 ∧
      onPrev^[5] { currentStep := 0, formData := [] } =
        { currentStep := 0, formData := [] } :=
  ⟨(onPrev_clamps { currentStep := 0, formData := [] }).1,
   (onPrev_clamps { currentStep := 0, formData := [] }).2 (by decide) 5⟩

/-- C10: With zero declared steps, one Next press from the initial state
sets `currentStep` to `min(0 + 1, 0 - 1) = -1`, so the bounds invariant
fails at stepCount 0: it only holds under the hypothesis stepCount ≥ 1. -/
theorem next_empty_steps :
    (onNext 0 initialState).currentStep = -1 ∧
      ¬ (0 ≤ (onNext 0 initialState).currentStep ∧
          (onNext 0 initialState).currentStep ≤ (0 : Int) - 1) := by
  constructor
  · rfl
  · intro h
    omega

/-- C4: On the last step, one Submit activation performs exactly one
completion-callback invocation, and the argument passed is the form data
bag at the time of the call. -/
theorem handleSubmit_calls_once (n : Nat) (st : FormState)
    (h : st.currentStep = (n : Int) - 1) :
    (handleSubmit st).2.length = 1 ∧ (handleSubmit st).2 = [st.formData] :=
  ⟨rfl, rfl⟩

/-- Witness for C4 at stepCount 3, last step, bag `{x: 1}`. -/
theorem handleSubmit_calls_once_witness :
    (handleSubmit { currentStep := 2, formData := [("x", "1")] }).2.length = 1 ∧
      (handleSubmit { currentStep := 2, formData := [("x", "1")] }).2 = [[("x", "1")]] :=
  handleSubmit_calls_once 3 { currentStep := 2, formData := [("x", "1")] } (by decide)

/-- C5: Reading the context with no provider mounted yields the designated
error synchronously and never a default value, while with a mounted provider
the accessor returns the context value unchanged; every other operation of
the embedding (`onNext`, `onPrev`, `handleSubmit`, `stepsData`) is a total
function and so raises nothing. -/
theorem useFormContext_no_provider :
    useFormContext none =
        Except.error "useFormContext must be used within a FormProvider" ∧
      (∀ c, useFormContext (some c) = Except.ok c) ∧
      (∀ o, useFormContext o = Except.ok { currentStep := 0, formData := [] } → o ≠ none) :=
  ⟨rfl, fun _ => rfl, fun o h => by
    intro ho
    subst ho
    exact absurd h (by simp [useFormContext])⟩

/-- C6: Submit leaves `currentStep` unchanged on the last step, and any
subsequent Next/Previous sequence behaves exactly as it would have without
the Submit activation. -/
theorem handleSubmit_frame (n : Nat) (st : FormState)
    (h : st.currentStep = (n : Int) - 1) :
    (handleSubmit st).1.currentStep = st.currentStep ∧
      ∀ acts : List NavAction, runNav n (handleSubmit st).1 acts = runNav n st acts :=
  ⟨rfl, fun _ => rfl⟩

/-- Witness for C6 at stepCount 3, last step, followed by a Prev press. -/
theorem handleSubmit_frame_witness :
    (handleSubmit { currentStep := 2, formData := [] }).1.currentStep = 2 ∧
      runNav 3 (handleSubmit { currentStep := 2, formData := [] }).1 [NavAction.prev] =
        runNav 3 { currentStep := 2, formData := [] } [NavAction.prev] :=
  ⟨(handleSubmit_frame 3 { currentStep := 2, formData := [] } (by decide)).1,
   (handleSubmit_frame 3 { currentStep := 2, formData := [] } (by decide)).2 [NavAction.prev]⟩

/-- C7: For a step list of length ≥ 1 and `currentStep` in range, the
stepper (called with `currentStep + 1`) marks a step completed exactly when
its ordinal is below `currentStep + 1`, active exactly when its ordinal
equals `currentStep + 1` (and exactly one step is active), pending exactly
when its ordinal exceeds `currentStep + 1`, and colors the connector after a
step exactly when that step is completed. -/
theorem stepper_classifies (steps : List StepProps) (st : FormState)
    (hn : 1 ≤ steps.length) (h0 : 0 ≤ st.currentStep)
    (h1 : st.currentStep ≤ (steps.length : Int) - 1) :
    (∀ i, ∀ hi : i < (stepsData steps).length,
      (stepVisual (stepperCurrentStep st) (((stepsData steps).get ⟨i, hi⟩).step) =
          StepVisual.completed ↔
        ((((stepsData steps).get ⟨i, hi⟩).step : Int) < st.currentStep + 1)) ∧
      (stepVisual (stepperCurrentStep st) (((stepsData steps).get ⟨i, hi⟩).step) =
          StepVisual.active ↔
        ((((stepsData steps).get ⟨i, hi⟩).step : Int) = st.currentStep + 1)) ∧
      (stepVisual (stepperCurrentStep st) (((stepsData steps).get ⟨i, hi⟩).step) =
          StepVisual.pending ↔
        (st.currentStep + 1 < (((stepsData steps).get ⟨i, hi⟩).step : Int))) ∧
      (connectorColor (stepperCurrentStep st) (((stepsData steps).get ⟨i, hi⟩).step) =
          "#788191" ↔
        stepVisual (stepperCurrentStep st) (((stepsData steps).get ⟨i, hi⟩).step) =
          StepVisual.completed)) ∧
    (∃! i : Nat, ∃ hi : i < (stepsData steps).length,
      stepVisual (stepperCurrentStep st) (((stepsData steps).get ⟨i, hi⟩).step) =
        StepVisual.active) := by
  constructor
  · intro i hi
    exact ⟨stepVisual_completed_iff _ _, stepVisual_active_iff _ _,
      stepVisual_pending_iff _ _, connectorColor_completed_iff _ _⟩
  · have hlen : st.currentStep.toNat < (stepsData steps).length := by
      rw [stepsData_length]
      omega
    refine ⟨st.currentStep.toNat, ⟨hlen, ?_⟩, ?_⟩
    · rw [stepVisual_active_iff, stepsData_step]
      simp only [stepperCurrentStep]
      push_cast
      omega
    · rintro j ⟨hj, hact⟩
      rw [stepVisual_active_iff, stepsData_step] at hact
      simp only [stepperCurrentStep] at hact
      push_cast at hact
      omega

/-- Witness for C7: steps titled A, B, C with `currentStep = 1`. -/
theorem stepper_classifies_witness :
    (∀ i, ∀ hi : i < (stepsData [{ title := "A" }, { title := "B" }, { title := "C" }]).length,
      (stepVisual (stepperCurrentStep { currentStep := 1, formData := [] })
          (((stepsData [{ title := "A" }, { title := "B" }, { title := "C" }]).get
            ⟨i, hi⟩).step) = StepVisual.completed ↔
        ((((stepsData [{ title := "A" }, { title := "B" }, { title := "C" }]).get
            ⟨i, hi⟩).step : Int) < (1 : Int) + 1)) ∧
      (stepVisual (stepperCurrentStep { currentStep := 1, formData := [] })
          (((stepsData [{ title := "A" }, { title := "B" }, { title := "C" }]).get
            ⟨i, hi⟩).step) = StepVisual.active ↔
        ((((stepsData [{ title := "A" }, { title := "B" }, { title := "C" }]).get
            ⟨i, hi⟩).step : Int) = (1 : Int) + 1)) ∧
      (stepVisual (stepperCurrentStep { currentStep := 1, formData := [] })
          (((stepsData [{ title := "A" }, { title := "B" }, { title := "C" }]).get
            ⟨i, hi⟩).step) = StepVisual.pending ↔
        ((1 : Int) + 1 < (((stepsData [{ title := "A" }, { title := "B" }, { title := "C" }]).get
            ⟨i, hi⟩).step : Int))) ∧
      (connectorColor (stepperCurrentStep { currentStep := 1, formData := [] })
          (((stepsData [{ title := "A" }, { title := "B" }, { title := "C" }]).get
            ⟨i, hi⟩).step) = "#788191" ↔
        stepVisual (stepperCurrentStep { currentStep := 1, formData := [] })
          (((stepsData [{ title := "A" }, { title := "B" }, { title := "C" }]).get
            ⟨i, hi⟩).step) = StepVisual.completed)) ∧
    (∃! i : Nat, ∃ hi : i <
        (stepsData [{ title := "A" }, { title := "B" }, { title := "C" }]).length,
      stepVisual (stepperCurrentStep { currentStep := 1, formData := [] })
        (((stepsData [{ title := "A" }, { title := "B" }, { title := "C" }]).get
          ⟨i, hi⟩).step) = StepVisual.active) :=
  stepper_classifies [{ title := "A" }, { title := "B" }, { title := "C" }]
    { currentStep := 1, formData := [] } (by decide) (by decide) (by decide)

/-- C8: The rendered navigation controls are a function of the props alone:
the Previous button is disabled exactly when `currentStep = 0`, and the
right-hand button reads Submit exactly when `currentStep = stepCount - 1`
(and Next otherwise). -/
theorem navigation_controls (n : Nat) (st : FormState) :
    ((renderNavigation (isFirstStep st) (isLastStep n st)).prevDisabled = true ↔
        st.currentStep = 0) ∧
      ((renderNavigation (isFirstStep st) (isLastStep n st)).rightButton = "Submit" ↔
        st.currentStep = (n : Int) - 1) ∧
      ((renderNavigation (isFirstStep st) (isLastStep n st)).rightButton = "Next" ↔
        st.currentStep ≠ (n : Int) - 1) := by
  refine ⟨?_, ?_, ?_⟩
  · simp [renderNavigation, isFirstStep]
  · simp only [renderNavigation, isLastStep]
    by_cases h : st.currentStep = (n : Int) - 1 <;> simp [h]
  · simp only [renderNavigation, isLastStep]
    by_cases h : st.currentStep = (n : Int) - 1 <;> simp [h]

/-- C9: The step-list derivation is length-preserving and pointwise assigns
the i-th declared element the ordinal `i + 1` and that element's title; it
is a pure function of the declared elements alone, independent of the shared
state. -/
theorem stepsData_spec (steps : List StepProps) :
    (stepsData steps).length = steps.length ∧
      ∀ i : Nat, (stepsData steps)[i]? =
        (steps[i]?).map (fun s => { step := i + 1, title := s.title }) := by
  constructor
  · simp [stepsData]
  · intro i
    simp only [stepsData, List.getElem?_map, List.getElem?_enum, Option.map_map]
    cases steps[i]? <;> rfl

end MultiStepFormLib
